import Mathlib

/-!
Formal model of the conversational intake core of the `sale-support`
repository (LINE-based listing assistant).  The definitions below are a
shallow embedding of `src/core/text_parser.py`, `src/core/feature_refiner.py`,
`src/core/session_manager.py`, `src/models/product.py` and the message
handlers of `src/app.py`; the theorems at the end settle the specification
claims about them.

Python strings are modelled as `List Char` (wrapped in `String` at the public
interface).  Python regular-expression searches are modelled by explicit
leftmost-match scanners over character lists.  The character classes are
restricted to the code points this system actually processes: ASCII, the
full-width digits `０-９`, the ideographic space `U+3000`, and the Japanese
scripts appearing in the keyword patterns.
-/

namespace SaleSupport

/-! ## Character classes (text_parser.py regex classes) -/

/-- Python `\d` restricted to the digit encodings handled by the system:
ASCII digits and full-width digits `０-９` (both are Unicode `Nd`). -/
def pyIsDigit (c : Char) : Bool :=
  (48 ≤ c.toNat && c.toNat ≤ 57) || (0xFF10 ≤ c.toNat && c.toNat ≤ 0xFF19)

/-- Numeric value of a digit character (`int()` accepts both encodings). -/
def digitVal (c : Char) : Int :=
  if 48 ≤ c.toNat && c.toNat ≤ 57 then (c.toNat : Int) - 48
  else (c.toNat : Int) - 0xFF10

/-- Source `int()` on a run of digit characters. -/
def pyInt (ds : List Char) : Int :=
  ds.foldl (fun acc c => 10 * acc + digitVal c) 0

/-- Python `\s` restricted to the whitespace this system sees (includes the
ideographic space `U+3000`, which Python's Unicode `\s` matches). -/
def pyIsSpace (c : Char) : Bool :=
  c = ' ' || c = '\t' || c = '\n' || c = '\r' ||
  c = '\x0b' || c = '\x0c' || c = ' ' || c = '　'

/-- The separator class `[:\s：]` used by the keyword patterns. -/
def sepColon (c : Char) : Bool := c = ':' || c = '：' || pyIsSpace c

/-- The separator class `[.:\s：]` used by the `管理No` pattern. -/
def sepColonDot (c : Char) : Bool := c = '.' || sepColon c

/-- ASCII-case-insensitive character comparison (Python `re.IGNORECASE`;
only ASCII letters occur cased in the patterns of this code base). -/
def ciEq (a b : Char) : Bool := a.toUpper = b.toUpper

/-! ## Normalization performed by `parse_simple_numbers` -/

/-- Source `str.maketrans('０１２３４５６７８９', '0123456789')` applied to one char. -/
def pyTranslateDigit (c : Char) : Char :=
  if c = '０' then '0' else if c = '１' then '1' else if c = '２' then '2'
  else if c = '３' then '3' else if c = '４' then '4' else if c = '５' then '5'
  else if c = '６' then '6' else if c = '７' then '7' else if c = '８' then '8'
  else if c = '９' then '9' else c

/-- Source `text.translate(...)` then `text.replace('　', ' ')`. -/
def pyNormalize (l : List Char) : List Char :=
  (l.map pyTranslateDigit).map (fun c => if c = '　' then ' ' else c)

/-! ## Digit runs: `re.findall(r'\d+', text)` -/

/-- Accumulator-style scanner for maximal runs of digits; `acc` holds the
current run reversed. -/
def runsAux : List Char → List Char → List (List Char)
  | [], acc => if acc.isEmpty then [] else [acc.reverse]
  | c :: cs, acc =>
    if pyIsDigit c then runsAux cs (c :: acc)
    else if acc.isEmpty then runsAux cs [] else acc.reverse :: runsAux cs []

/-- All maximal runs of digit characters, left to right. -/
def digitRuns (l : List Char) : List (List Char) := runsAux l []

/-! ## `TextParser.parse_simple_numbers` and its consumers -/

/-- Source `TextParser.parse_simple_numbers(text, count)`: normalize, extract the
digit runs, and return the first `count` as integers, padding with `none`. -/
def parse_simple_numbers (text : String) (count : Nat) : List (Option Int) :=
  (List.range count).map
    (fun i => ((digitRuns (pyNormalize text.data)).get? i).map pyInt)

/-- Source `TextParser.parse_price_and_id(text)`: first run is the purchase price,
second run (stringified) the management id.  NOTE: the source returns a
2-tuple, while its only caller (`app.py` line 240) unpacks three values. -/
def parse_price_and_id (text : String) : Option Int × Option String :=
  ((parse_simple_numbers text 2).getD 0 none,
   ((parse_simple_numbers text 2).getD 1 none).map (fun v => toString v))

/-- Modelled from the spec: `TextParser.parse_sale_info` is called from
`process_sale_info_input` (`app.py` line 426) but its definition is absent
from `src/core/text_parser.py`.  Spec §4.1: "extracts exactly 3 positional
integers (management id, sale price, shipping cost) under the same
normalization rules as above"; the management id is consumed as a string, and
each slot beyond the available digit runs is absent. -/
def parse_sale_info (text : String) : Option String × Option Int × Option Int :=
  (((parse_simple_numbers text 3).getD 0 none).map (fun v => toString v),
   (parse_simple_numbers text 3).getD 1 none,
   (parse_simple_numbers text 3).getD 2 none)

/-! ## `models/product.py`: `Measurements` -/

/-- Source `Measurements` dataclass: 8 optional integer fields. -/
structure Measurements where
  length : Option Int := none
  width : Option Int := none
  shoulder : Option Int := none
  sleeve : Option Int := none
  waist : Option Int := none
  inseam : Option Int := none
  hem_width : Option Int := none
  rise : Option Int := none
deriving DecidableEq, Repr

/-- The all-absent measurement set (`Measurements()`). -/
def Measurements.empty : Measurements := {}

/-- Python truthiness of an optional integer (`None` and `0` are falsy),
as used by `all([...])` in the completeness checks. -/
def optTruthy (o : Option Int) : Bool :=
  match o with
  | some v => v ≠ 0
  | none => false

/-- Source `Measurements.has_tops_measurements`. -/
def Measurements.has_tops_measurements (m : Measurements) : Bool :=
  optTruthy m.length && optTruthy m.width && optTruthy m.shoulder && optTruthy m.sleeve

/-- Source `Measurements.has_pants_measurements`. -/
def Measurements.has_pants_measurements (m : Measurements) : Bool :=
  optTruthy m.waist && optTruthy m.inseam && optTruthy m.hem_width && optTruthy m.rise

/-- Source `TextParser.parse_measurements_simple(text, category)`: positional
assignment of the digit runs, with the field layout chosen by `category`. -/
def parse_measurements_simple (text : String) (category : String) : Measurements :=
  if category = "パンツ" then
    { waist := (parse_simple_numbers text 4).getD 0 none,
      inseam := (parse_simple_numbers text 4).getD 1 none,
      hem_width := (parse_simple_numbers text 4).getD 2 none,
      rise := (parse_simple_numbers text 4).getD 3 none }
  else if category = "セットアップ" then
    { length := (parse_simple_numbers text 8).getD 0 none,
      width := (parse_simple_numbers text 8).getD 1 none,
      shoulder := (parse_simple_numbers text 8).getD 2 none,
      sleeve := (parse_simple_numbers text 8).getD 3 none,
      waist := (parse_simple_numbers text 8).getD 4 none,
      inseam := (parse_simple_numbers text 8).getD 5 none,
      hem_width := (parse_simple_numbers text 8).getD 6 none,
      rise := (parse_simple_numbers text 8).getD 7 none }
  else
    { length := (parse_simple_numbers text 4).getD 0 none,
      width := (parse_simple_numbers text 4).getD 1 none,
      shoulder := (parse_simple_numbers text 4).getD 2 none,
      sleeve := (parse_simple_numbers text 4).getD 3 none }

/-! ## Keyword-pattern machinery (regex searches of text_parser.py)

A literal specification is a list of `(character predicate, optional?)`
items; matching is committed (no backtracking), which agrees with the
source's patterns because in each of them the character after an optional
item can never equal the optional character itself. -/

/-- One literal item: predicate on the character, and whether it is
optional (`れ?`, `格?`, case-insensitive letters, ...). -/
def LitSpec : Type := List ((Char → Bool) × Bool)

/-- Required literal character. -/
def lit (k : Char) : (Char → Bool) × Bool := (fun c => c = k, false)

/-- Optional literal character (`k?`). -/
def litOpt (k : Char) : (Char → Bool) × Bool := (fun c => c = k, true)

/-- Required character matched case-insensitively. -/
def litCI (k : Char) : (Char → Bool) × Bool := (fun c => ciEq c k, false)

/-- Literal specification for a plain string. -/
def litStr (s : String) : LitSpec := s.data.map lit

/-- Match a literal specification at the head of the input, returning the
remaining characters. -/
def dropLit : LitSpec → List Char → Option (List Char)
  | [], cs => some cs
  | (_, opt) :: ks, [] => if opt then dropLit ks [] else none
  | (p, opt) :: ks, c :: cs =>
    if p c then dropLit ks cs
    else if opt then dropLit ks (c :: cs) else none

/-- Anchored match of `keyword  sep*  (\d+)` at the head of the input;
returns the (maximal) digit run captured. -/
def matchKwNum (spec : LitSpec) (sep : Char → Bool) (cs : List Char) :
    Option (List Char) :=
  match dropLit spec cs with
  | none => none
  | some rest =>
    let ds := (rest.dropWhile sep).takeWhile pyIsDigit
    if ds.isEmpty then none else some ds

/-- Source `re.search`: try the anchored matcher at every position, leftmost first
(including the empty position at the end of the input). -/
def searchPat {α : Type} (m : List Char → Option α) : List Char → Option α
  | [] => m []
  | c :: cs =>
    match m (c :: cs) with
    | some r => some r
    | none => searchPat m cs

/-- Search for `keyword sep* (\d+)` anywhere in the input. -/
def searchKwNum (spec : LitSpec) (sep : Char → Bool) (l : List Char) :
    Option (List Char) :=
  searchPat (matchKwNum spec sep) l

/-! ## `TextParser.parse_measurements` (keyword form) -/

/-- Source `TextParser.parse_measurements(text)`: each of the 8 field patterns
`keyword[:\s：]*(\d+)` searched independently. -/
def parse_measurements (text : String) : Measurements :=
  { length := (searchKwNum (litStr "着丈") sepColon text.data).map pyInt,
    width := (searchKwNum (litStr "身幅") sepColon text.data).map pyInt,
    shoulder := (searchKwNum (litStr "肩幅") sepColon text.data).map pyInt,
    sleeve := (searchKwNum (litStr "袖丈") sepColon text.data).map pyInt,
    waist := (searchKwNum (litStr "ウエスト") sepColon text.data).map pyInt,
    inseam := (searchKwNum (litStr "股下") sepColon text.data).map pyInt,
    hem_width := (searchKwNum (litStr "裾幅") sepColon text.data).map pyInt,
    rise := (searchKwNum (litStr "股上") sepColon text.data).map pyInt }

/-! ## `TextParser.parse_purchase_price` -/

/-- Pattern `仕入れ?価格?[:\s：　]*(\d+)円?` (the optional trailing `円`
does not affect the captured digits). -/
def pricePat1 : LitSpec := [lit '仕', lit '入', litOpt 'れ', lit '価', litOpt '格']

/-- Pattern `購入価格?[:\s：　]*(\d+)円?`. -/
def pricePat3 : LitSpec := [lit '購', lit '入', lit '価', litOpt '格']

/-- Source `TextParser.parse_purchase_price(text)`: the four keyword patterns tried
in order, first match wins. -/
def parse_purchase_price (text : String) : Option Int :=
  (((searchKwNum pricePat1 sepColon text.data).orElse
      (fun _ => searchKwNum (litStr "仕入") sepColon text.data)).orElse
    (fun _ => (searchKwNum pricePat3 sepColon text.data).orElse
      (fun _ => searchKwNum (litStr "原価") sepColon text.data))).map pyInt

/-! ## `TextParser.parse_management_id` -/

/-- Source `TextParser.parse_management_id(text)`: three patterns in order; the
captured digit run is returned as a string (no integer conversion).  The
optional `(?:商品)?` prefix of the first pattern never changes the capture,
so it is omitted. -/
def parse_management_id (text : String) : Option String :=
  (((searchKwNum (litStr "管理番号") sepColon text.data).orElse
      (fun _ =>
        searchKwNum [lit '管', lit '理', litCI 'N', litCI 'o'] sepColonDot text.data)).orElse
    (fun _ => searchKwNum [litCI 'I', litCI 'D'] sepColon text.data)).map String.mk

/-! ## `TextParser.parse_gender` -/

/-- Does the second list start with the first? -/
def listStartsWith : List Char → List Char → Bool
  | [], _ => true
  | _ :: _, [] => false
  | p :: ps, c :: cs => p = c && listStartsWith ps cs

/-- Substring containment on character lists. -/
def listContains (pat : List Char) : List Char → Bool
  | [] => pat.isEmpty
  | c :: cs => listStartsWith pat (c :: cs) || listContains pat cs

/-- Case-insensitive substring containment (ASCII case only; the Japanese
alternatives carry no case). -/
def ciContains (hay pat : List Char) : Bool :=
  listContains (pat.map Char.toUpper) (hay.map Char.toUpper)

/-- Source `re.search` of the alternation `メンズ|男性|MEN` (IGNORECASE) succeeds
iff some alternative occurs as a substring. -/
def matchesMens (l : List Char) : Bool :=
  ciContains l "メンズ".data || ciContains l "男性".data || ciContains l "MEN".data

/-- Alternation `レディース|女性|WOMEN|LADIES`. -/
def matchesLadies (l : List Char) : Bool :=
  ciContains l "レディース".data || ciContains l "女性".data ||
  ciContains l "WOMEN".data || ciContains l "LADIES".data

/-- Alternation `ユニセックス|男女兼用|UNISEX`. -/
def matchesUnisex (l : List Char) : Bool :=
  ciContains l "ユニセックス".data || ciContains l "男女兼用".data ||
  ciContains l "UNISEX".data

/-- Source `TextParser.parse_gender(text)`: the three gender patterns are tried in
dictionary insertion order, men's first. -/
def parse_gender (text : String) : Option String :=
  if matchesMens text.data then some "メンズ"
  else if matchesLadies text.data then some "レディース"
  else if matchesUnisex text.data then some "ユニセックス"
  else none

/-! ## `TextParser.parse_size` -/

/-- Python `\w` restricted to the scripts this system processes: ASCII
alphanumerics, underscore, hiragana/katakana, CJK unified ideographs, and
full-width digits/letters. -/
def isWordChar (c : Char) : Bool :=
  c.isAlphanum || c = '_' ||
  (0x3040 ≤ c.toNat && c.toNat ≤ 0x30FF) ||
  (0x4E00 ≤ c.toNat && c.toNat ≤ 0x9FFF) ||
  (0xFF10 ≤ c.toNat && c.toNat ≤ 0xFF19) ||
  (0xFF21 ≤ c.toNat && c.toNat ≤ 0xFF3A) ||
  (0xFF41 ≤ c.toNat && c.toNat ≤ 0xFF5A)

/-- The size-code alternatives, in the source's alternation order. -/
def sizeAlts : List String :=
  ["XXS", "XS", "S", "M", "L", "XL", "XXL", "2XL", "3XL", "FREE", "F"]

/-- Case-insensitive anchored match of a literal, returning the rest. -/
def ciDropLit : List Char → List Char → Option (List Char)
  | [], cs => some cs
  | _ :: _, [] => none
  | p :: ps, c :: cs => if ciEq c p then ciDropLit ps cs else none

/-- Try the alternatives in order at this position, requiring a trailing
word boundary after the matched alternative. -/
def tryAlts : List String → List Char → Option String
  | [], _ => none
  | a :: as, cs =>
    match ciDropLit a.data cs with
    | some rest =>
      if (match rest with | [] => true | r :: _ => !isWordChar r) then some a
      else tryAlts as cs
    | none => tryAlts as cs

/-- Scan for `\b(XXS|…|F)\b` (IGNORECASE), tracking the previous character
for the leading word boundary (every alternative starts with a word
character, so the boundary holds iff the previous character is absent or a
non-word character). -/
def searchSize : Option Char → List Char → Option String
  | _, [] => none
  | prev, c :: cs =>
    let boundaryPrev := match prev with | none => true | some p => !isWordChar p
    match (if boundaryPrev then tryAlts sizeAlts (c :: cs) else none) with
    | some a => some a
    | none => searchSize (some c) cs

/-- Source `TextParser.parse_size(text)`: the free-size pattern is checked first
(both its alternatives normalize to `フリー`); otherwise the bounded size
code is matched and `FREE`/`F` normalize to `フリー`. -/
def parse_size (text : String) : Option String :=
  if listContains "フリーサイズ".data text.data ||
      listContains "フリー".data text.data then
    some "フリー"
  else
    match searchSize none text.data with
    | some a => if a = "FREE" || a = "F" then some "フリー" else some a
    | none => none

/-! ## `TextParser.parse_era` -/

/-- Anchored match of exactly `k` digits followed by a literal suffix;
returns the digit characters (the capture group). -/
def matchDigitsSuffix (k : Nat) (suffix : LitSpec) (cs : List Char) :
    Option (List Char) :=
  let ds := cs.take k
  if ds.length = k && ds.all pyIsDigit then
    match dropLit suffix (cs.drop k) with
    | some _ => some ds
    | none => none
  else none

/-- Source `TextParser.parse_era(text)`: patterns `(\d{2})s`, `(\d{4})年代`,
`(\d{2})年代` in order; 2-digit captures normalize to `NNs`, 4-digit
captures to `NNNN年代`. -/
def parse_era (text : String) : Option String :=
  match searchPat (matchDigitsSuffix 2 [litCI 's']) text.data with
  | some ds => some (String.mk ds ++ "s")
  | none =>
    match searchPat (matchDigitsSuffix 4 [lit '年', lit '代']) text.data with
    | some ds => some (String.mk ds ++ "年代")
    | none =>
      match searchPat (matchDigitsSuffix 2 [lit '年', lit '代']) text.data with
      | some ds => some (String.mk ds ++ "s")
      | none => none

/-! ## `TextParser.parse_all` -/

/-- The dictionary returned by `TextParser.parse_all`. -/
structure ParsedAll where
  measurements : Measurements
  purchase_price : Option Int
  management_id : Option String
  gender : Option String
  size : Option String
  era : Option String
  raw_text : String
deriving DecidableEq, Repr

/-- Source `TextParser.parse_all(text)`: all verbose parsers combined. -/
def parse_all (text : String) : ParsedAll :=
  { measurements := parse_measurements text,
    purchase_price := parse_purchase_price text,
    management_id := parse_management_id text,
    gender := parse_gender text,
    size := parse_size text,
    era := parse_era text,
    raw_text := text }

/-! ## `models/product.py`: enumerations and the `ProductFeatures` object

`ProductFeatures` instances are mutated by `setattr`/`hasattr`-style dynamic
attribute access in `feature_refiner.py`, so the object is modelled the way
Python stores it: as a partial map from attribute names to values. -/

/-- Source `Category` enum. -/
inductive Category where
  | TOPS
  | PANTS
  | SETUP
deriving DecidableEq, Repr

/-- Source `PricingStrategy` enum. -/
inductive PricingStrategy where
  | HIGH_PROFIT
  | BALANCED
  | QUICK_SALE
deriving DecidableEq, Repr

/-- A Python attribute value as it occurs on `ProductFeatures`: a string, a
`Category` enum member, `None`, or a numeric confidence. -/
inductive PyVal where
  | str : String → PyVal
  | cat : Category → PyVal
  | pnone : PyVal
  | num : ℚ → PyVal
deriving DecidableEq

/-- A Python object's attribute dictionary. -/
def AttrObj : Type := String → Option PyVal

/-- Source `setattr(f, k, v)`. -/
def objSet (f : AttrObj) (k : String) (v : PyVal) : AttrObj :=
  fun n => if n = k then some v else f n

/-- Source `hasattr(f, k)`. -/
def objHas (f : AttrObj) (k : String) : Bool := (f k).isSome

/-- The `ProductFeatures()` dataclass defaults. -/
def defaultFeatures : AttrObj := fun n =>
  if n = "brand" then some (.str "UNKNOWN")
  else if n = "category" then some (.cat .TOPS)
  else if n = "item_type" then some (.str "UNKNOWN")
  else if n = "gender" then some (.str "UNKNOWN")
  else if n = "size" then some (.str "UNKNOWN")
  else if n = "color" then some (.str "UNKNOWN")
  else if n = "design" then some .pnone
  else if n = "material" then some .pnone
  else if n = "era" then some .pnone
  else if n = "condition" then some (.str "目立った傷や汚れなし")
  else if n = "confidence" then some (.num 0)
  else none

/-! ## `core/feature_refiner.py`: `FeatureRefiner` -/

/-- Python `str.strip()`. -/
def pyStrip (l : List Char) : List Char :=
  ((l.dropWhile pyIsSpace).reverse.dropWhile pyIsSpace).reverse

/-- Source `text.split("\n")`. -/
def splitNlAux : List Char → List Char → List (List Char)
  | [], acc => [acc.reverse]
  | c :: cs, acc =>
    if c = '\n' then acc.reverse :: splitNlAux cs [] else splitNlAux cs (c :: acc)

/-- Source `text.split("\n")` on a character list. -/
def splitNl (l : List Char) : List (List Char) := splitNlAux l []

/-- Source `STRATEGY_PATTERNS` bodies: `pattern.search(line)` for
`^[Xxd]$|phrase` succeeds iff the line is exactly one of the three single
characters, or the phrase occurs as a substring. -/
def stratMatch (chars : List Char) (phrase : String) (line : List Char) : Bool :=
  (match line with | [c] => chars.contains c | _ => false) ||
  listContains phrase.data line

/-- One line's pass over `STRATEGY_PATTERNS`: the source's `continue` is a
no-op, so every pattern is tried and a later match overwrites an earlier
one (dictionary order `HIGH_PROFIT`, `BALANCED`, `QUICK_SALE`). -/
def strategyOfLine (line : List Char) (current : Option PricingStrategy) :
    Option PricingStrategy :=
  let s1 := if stratMatch ['A', 'a', '1'] "高利益" line then some .HIGH_PROFIT else current
  let s2 := if stratMatch ['B', 'b', '2'] "バランス" line then some .BALANCED else s1
  if stratMatch ['C', 'c', '3'] "回転" line then some .QUICK_SALE else s2

/-- Source `MODIFICATION_PATTERN.match(line)` for `^(\d+)\s+(.+)$`, returning the
field number and the value already `.strip()`ed; the stripped value of
group 2 equals the stripped remainder after the digits. -/
def modMatch (line : List Char) : Option (Int × String) :=
  let ds := line.takeWhile pyIsDigit
  if ds.isEmpty then none
  else
    match line.drop ds.length with
    | [] => none
    | r :: rs =>
      if pyIsSpace r && !rs.isEmpty then
        some (pyInt ds, String.mk (pyStrip (r :: rs)))
      else none

/-- Source `FIELD_MAPPING`. -/
def fieldOfNum (n : Int) : Option String :=
  if n = 1 then some "brand" else if n = 2 then some "category"
  else if n = 3 then some "item_type" else if n = 4 then some "gender"
  else if n = 5 then some "size" else if n = 6 then some "color"
  else if n = 7 then some "design" else if n = 8 then some "era"
  else none

/-- Python dict assignment `d[k] = v`: overwrite in place, or append. -/
def dictInsert (d : List (String × String)) (k v : String) :
    List (String × String) :=
  if d.any (fun p => p.1 = k) then
    d.map (fun p => if p.1 = k then (k, v) else p)
  else d ++ [(k, v)]

/-- Source `FeatureRefiner.parse_input(text)`: strip, split into lines, and fold
each non-empty stripped line through the strategy and modification checks. -/
def parse_input (text : String) :
    Option (List (String × String)) × Option PricingStrategy :=
  let step := fun (st : List (String × String) × Option PricingStrategy)
      (line0 : List Char) =>
    let line := pyStrip line0
    if line.isEmpty then st
    else
      let strategy := strategyOfLine line st.2
      let mods :=
        match modMatch line with
        | some (n, v) =>
          match fieldOfNum n with
          | some fieldName => dictInsert st.1 fieldName v
          | none => st.1
        | none => st.1
      (mods, strategy)
  let res := (splitNl (pyStrip text.data)).foldl step ([], none)
  (if res.1.isEmpty then none else some res.1, res.2)

/-- Source `CATEGORY_MAPPING`. -/
def categoryMapping (v : String) : Option Category :=
  if v = "トップス" then some .TOPS
  else if v = "パンツ" then some .PANTS
  else if v = "セットアップ" then some .SETUP
  else none

/-- The "none" synonyms recognised for `design` edits. -/
def noneSynonyms : List String := ["なし", "特になし", "無し", "null", "None"]

/-- One iteration of the loop in `FeatureRefiner.apply_modifications`. -/
def applyModStep (f : AttrObj) (kv : String × String) : AttrObj :=
  if kv.1 = "category" then
    match categoryMapping kv.2 with
    | some c => objSet f "category" (PyVal.cat c)
    | none => f
  else if kv.1 = "design" then
    if noneSynonyms.contains kv.2 then objSet f "design" PyVal.pnone
    else objSet f "design" (PyVal.str kv.2)
  else if objHas f kv.1 then objSet f kv.1 (PyVal.str kv.2) else f

/-- Source `FeatureRefiner.apply_modifications(features, modifications)`: the edits
are applied in iteration order. -/
def apply_modifications (f : AttrObj) (mods : List (String × String)) : AttrObj :=
  mods.foldl applyModStep f

/-! ## `core/session_manager.py`: session entity and store -/

/-- Source `SessionState` enum (`session_manager.py` lines 16-22): exactly
five members.  NOTE: `app.py` lines 215 and 224 reference
`SessionState.WAITING_SALE_INFO`, a member this enum does not have, so both
references raise `AttributeError` at runtime (see the sale-flow theorem). -/
inductive SessionState where
  | IDLE
  | COLLECTING
  | WAITING_MEASUREMENTS
  | CONFIRMING
  | GENERATING
deriving DecidableEq, Repr

/-- The `Product` dataclass, restricted to the fields the state machine
supplies from the session (the generated title/description/price suggestion
are produced by external collaborators). -/
structure Product where
  management_id : Option String
  purchase_price : Option Int
  measurements : Option Measurements
  features : Option AttrObj
  image_paths : List String
  raw_text : String

/-- The `UserSession` dataclass.  Timestamps are integers supplied by the
environment. -/
structure UserSession where
  user_id : String
  state : SessionState := .IDLE
  created_at : Int := 0
  updated_at : Int := 0
  image_paths : List String := []
  text_input : String := ""
  purchase_price : Option Int := none
  management_id : Option String := none
  measurements : Option Measurements := none
  gender : Option String := none
  size : Option String := none
  era : Option String := none
  features : Option AttrObj := none
  description_text : String := ""
  detected_category : Option String := none
  product : Option Product := none

/-- Source `UserSession.reset()` followed by `touch()` at time `now`. -/
def UserSession.reset (s : UserSession) (now : Int) : UserSession :=
  { s with
    state := .IDLE
    image_paths := []
    text_input := ""
    purchase_price := none
    management_id := none
    measurements := none
    gender := none
    size := none
    era := none
    features := none
    description_text := ""
    detected_category := none
    product := none
    updated_at := now }

/-- Source `UserSession.is_expired()` with the configured timeout in minutes. -/
def UserSession.is_expired (s : UserSession) (now timeoutMinutes : Int) : Bool :=
  (now - s.updated_at) > timeoutMinutes * 60

/-- Source `UserSession.has_required_data()` (plain `is not None` checks). -/
def UserSession.has_required_data (s : UserSession) : Bool :=
  decide (0 < s.image_paths.length) && s.purchase_price.isSome &&
  s.management_id.isSome && s.measurements.isSome

/-- Python truthiness of an optional string (`None` and `""` are falsy). -/
def optStrTruthy (o : Option String) : Bool :=
  match o with
  | some v => v ≠ ""
  | none => false

/-! ## `app.py`: the conversation state machine

External collaborators (vision inference, image download, ledger,
generation) are modelled as an oracle environment; a `none`/failure entry
means the corresponding call raised, which the handlers catch at the
boundaries the source catches them. -/

/-- Oracle outcomes for the external collaborator calls made while handling
one message, plus the clock and the configured session timeout. -/
structure Env where
  now : Int := 0
  timeoutMinutes : Int := 30
  detect_category : Option String := none
  analysis : Option AttrObj := none
  download : Option String := none
  ledgerRaises : Bool := false
  ledgerFound : Bool := false
  genStage : Nat := 2

/-- Source `SessionManager.get_session` on an existing session: reset in place when
expired. -/
def get_session (env : Env) (s : UserSession) : UserSession :=
  if s.is_expired env.now env.timeoutMinutes then s.reset env.now else s

/-- ASCII `str.lower()`. -/
def pyLower (l : List Char) : List Char := l.map Char.toLower

/-- The reset trigger words (compared after `strip().lower()`). -/
def resetCommands : List String := ["リセット", "reset", "キャンセル", "cancel"]

/-- The sale trigger words (compared after `strip()`). -/
def saleTriggers : List String := ["売却", "売れた", "販売完了"]

/-- Source `start_analysis(user_id, reply_token, session)`: on inference success the
feature summary is stored (with the detected category and the text-derived
gender/size/era overrides) and the state becomes `CONFIRMING`; when
`analyzer.analyze` raises, the caller catches and the session is unchanged. -/
def start_analysis (env : Env) (s : UserSession) : UserSession :=
  match env.analysis with
  | none => s
  | some features0 =>
    let features1 :=
      match s.detected_category with
      | some dc =>
        if dc = "" then features0
        else objSet features0 "category" (PyVal.cat ((categoryMapping dc).getD .TOPS))
      | none => features0
    let features2 :=
      match s.gender with
      | some g => if g = "" then features1 else objSet features1 "gender" (.str g)
      | none => features1
    let features3 :=
      match s.size with
      | some v => if v = "" then features2 else objSet features2 "size" (.str v)
      | none => features2
    let features4 :=
      match s.era with
      | some e => if e = "" then features3 else objSet features3 "era" (.str e)
      | none => features3
    let desc :=
      match features4 "_description_text" with
      | some (.str t) => t
      | _ => ""
    { s with
      features := some features4
      description_text := desc
      state := .CONFIRMING }

/-- Source `start_category_detection`: stores the detected category and moves to
`WAITING_MEASUREMENTS`; unchanged when `detect_category` raises. -/
def start_category_detection (env : Env) (s : UserSession) : UserSession :=
  match env.detect_category with
  | none => s
  | some cat =>
    { s with detected_category := some cat, state := .WAITING_MEASUREMENTS }

/-- Source `session.detected_category or "トップス"` (Python `or`: `None` and the
empty string both fall back to the default). -/
def sessionCategory (s : UserSession) : String :=
  match s.detected_category with
  | some c => if c = "" then "トップス" else c
  | none => "トップス"

/-- The measurement set parsed from a message under the session's category. -/
def sessionMeasurements (s : UserSession) (text : String) : Measurements :=
  parse_measurements_simple text (sessionCategory s)

/-- The session with the freshly parsed measurements stored. -/
def measurementsStored (s : UserSession) (text : String) : UserSession :=
  { s with measurements := some (sessionMeasurements s text) }

/-- Source `process_measurements_input`: parse with the detected category
(`session.detected_category or "トップス"`), re-prompt when incomplete,
otherwise store and start analysis. -/
def process_measurements_input (env : Env) (s : UserSession) (text : String) :
    UserSession :=
  if sessionCategory s = "パンツ" then
    if (sessionMeasurements s text).has_pants_measurements then
      start_analysis env (measurementsStored s text)
    else s
  else if sessionCategory s = "セットアップ" then
    if (sessionMeasurements s text).has_tops_measurements &&
        (sessionMeasurements s text).has_pants_measurements then
      start_analysis env (measurementsStored s text)
    else s
  else
    if (sessionMeasurements s text).has_tops_measurements then
      start_analysis env (measurementsStored s text)
    else s

/-- The (management id, sale price, shipping cost) triple handed to the
ledger by `process_sale_info_input`, when the input parses. -/
def sale_ledger_call (text : String) : Option (String × Int × Int) :=
  match parse_sale_info text with
  | (some a, some b, some c) => some (a, b, c)
  | _ => none

/-- Source `process_sale_info_input` (`app.py` lines 418-471): unparseable
input re-prompts and leaves the session unchanged; otherwise the ledger is
invoked and the session is reset on every ledger outcome (exception, record
not found, success).  NOTE: in the current source this function is
unreachable — its only call site sits behind the dispatch comparison at
`app.py` line 224, which raises `AttributeError` (missing enum member). -/
def process_sale_info_input (env : Env) (s : UserSession) (text : String) :
    UserSession :=
  match sale_ledger_call text with
  | some _ =>
    if env.ledgerRaises then s.reset env.now
    else if env.ledgerFound then s.reset env.now
    else s.reset env.now
  | none => s

/-- The session in `GENERATING` with the assembled `Product` stored
(`session.product = product` in `generate_product_info`). -/
def generationStored (s : UserSession) : UserSession :=
  { s with
    state := .GENERATING
    product := some
      { management_id := s.management_id, purchase_price := s.purchase_price,
        measurements := s.measurements, features := s.features,
        image_paths := s.image_paths, raw_text := s.text_input } }

/-- Source `generate_product_info`: moves to `GENERATING`; `genStage 0` models a
raise before the product is stored, `genStage 1` a raise after it is stored
but before the final reset, and any other stage a complete run ending in
`reset()`. -/
def generate_product_info (env : Env) (s : UserSession)
    (_strategy : PricingStrategy) : UserSession :=
  if env.genStage = 0 then { s with state := .GENERATING }
  else if env.genStage = 1 then generationStored s
  else (generationStored s).reset env.now

/-- The edit application of `process_confirmation_response`: mutate the
feature summary when both edits and a summary are present. -/
def confirmationEdits (s : UserSession) (text : String) : UserSession :=
  match (parse_input text).1, s.features with
  | some mods, some f => { s with features := some (apply_modifications f mods) }
  | _, _ => s

/-- Source `process_confirmation_response`: apply the edits when both edits and a
feature summary are present, then trigger generation when a strategy was
picked. -/
def process_confirmation_response (env : Env) (s : UserSession) (text : String) :
    UserSession :=
  match (parse_input text).2 with
  | some strat => generate_product_info env (confirmationEdits s text) strat
  | none => confirmationEdits s text

/-- Source `process_text_message`: global reset/sale interceptors.  A reset
command resets the session.  A sale trigger runs `session.reset()` and the
image clearing, but the next statement
`session.state = SessionState.WAITING_SALE_INFO` (`app.py` line 215) raises
`AttributeError` — the source enum has no such member — so the session is
left reset to `IDLE` and never enters a sale-await state.  Every other text
message evaluates `SessionState.WAITING_SALE_INFO` in the dispatch
comparison (`app.py` line 224) and raises the same `AttributeError` before
any mutation, so the state-specific handlers defined below the dispatch
(`process_sale_info_input`, `process_confirmation_response`,
`process_measurements_input`, and the compact-parse branch at line 240) are
unreachable from text input and the session is unchanged. -/
def process_text_message (env : Env) (s : UserSession) (text : String) :
    UserSession :=
  if resetCommands.contains (String.mk (pyLower (pyStrip text.data))) then
    s.reset env.now
  else if saleTriggers.contains (String.mk (pyStrip text.data)) then
    s.reset env.now
  else s

/-- The session with a downloaded image appended and state `COLLECTING`. -/
def imageAppended (s : UserSession) (path : String) : UserSession :=
  { s with
    image_paths := s.image_paths ++ [path]
    state := SessionState.COLLECTING }

/-- The readiness branching after an image was appended
(`if session.purchase_price and session.management_id:` uses Python
truthiness, so a price of `0` or an empty id count as missing). -/
def imageReady (env : Env) (s : UserSession) (path : String) : UserSession :=
  if optTruthy (imageAppended s path).purchase_price &&
      optStrTruthy (imageAppended s path).management_id then
    if (match (imageAppended s path).measurements with
        | some m => m.has_tops_measurements || m.has_pants_measurements
        | none => false) then
      start_analysis env (imageAppended s path)
    else
      start_category_detection env (imageAppended s path)
  else imageAppended s path

/-- Source `process_image_message`: reject in `CONFIRMING`/`WAITING_MEASUREMENTS`;
otherwise append the downloaded image, move to `COLLECTING`, and evaluate
the readiness branches. -/
def process_image_message (env : Env) (s : UserSession) : UserSession :=
  if s.state = .CONFIRMING || s.state = .WAITING_MEASUREMENTS then s
  else
    match env.download with
    | none => s
    | some path => imageReady env s path

/-! ## Auxiliary definitions used by the verification -/

/-- Map half-width digits and the half-width space to their full-width
counterparts, leaving every other character unchanged. -/
def toFullWidth (c : Char) : Char :=
  if c = '0' then '０' else if c = '1' then '１' else if c = '2' then '２'
  else if c = '3' then '３' else if c = '4' then '４' else if c = '5' then '５'
  else if c = '6' then '６' else if c = '7' then '７' else if c = '8' then '８'
  else if c = '9' then '９' else if c = ' ' then '　' else c

/-- Per-character effect of `pyNormalize`. -/
def normChar (c : Char) : Char :=
  if pyTranslateDigit c = '　' then ' ' else pyTranslateDigit c

/-- The 8 fields of a measurement set, as a list. -/
def Measurements.fieldList (m : Measurements) : List (Option Int) :=
  [m.length, m.width, m.shoulder, m.sleeve, m.waist, m.inseam, m.hem_width, m.rise]

/-- Number of digit runs the normalizing parsers see. -/
def numRuns (text : String) : Nat := (digitRuns (pyNormalize text.data)).length

/-- No character of the raw text is a digit. -/
def hasNoDigit (text : String) : Bool := text.data.all (fun c => !pyIsDigit c)

/-- The write performed by one edit, given the object's attribute domain
`d`: category edits write only when the label is known, design edits always
write (`none`-synonyms clear the field), all other edits write verbatim when
the attribute exists. -/
def writeOfD (d : String → Bool) (kv : String × String) : Option (String × PyVal) :=
  if kv.1 = "category" then
    (categoryMapping kv.2).map (fun c => ("category", PyVal.cat c))
  else if kv.1 = "design" then
    some ("design", if noneSynonyms.contains kv.2 then PyVal.pnone else PyVal.str kv.2)
  else if d kv.1 then some (kv.1, PyVal.str kv.2) else none

/-- The attribute domain of an object. -/
def objDom (f : AttrObj) : String → Bool := fun n => (f n).isSome

/-- One step of the last-effective-write scan at attribute `n`. -/
def lwStep (d : String → Bool) (n : String) (acc : Option PyVal)
    (kv : String × String) : Option PyVal :=
  match writeOfD d kv with
  | some (k, w) => if k = n then some w else acc
  | none => acc

/-- The last effective write of an edit list at attribute `n`. -/
def lastWrite (d : String → Bool) (n : String) (e : List (String × String)) :
    Option PyVal :=
  e.foldl (lwStep d n) none

/-- The state-machine invariant: a session in `CONFIRMING` has a feature
summary. -/
def ConfirmingHasFeatures (s : UserSession) : Prop :=
  s.state = .CONFIRMING → s.features.isSome = true

/-- A fresh session used to instantiate the hypotheses of the state-machine
theorems. -/
def sessionIdle : UserSession := { user_id := "user" }

/-- An oracle environment with every collaborator call failing (the
defaults), used to instantiate the state-machine theorems. -/
def envDefault : Env := {}

/-! # Theorems about the claims -/

example : parse_price_and_id "880 222" = (some 880, some "222") := by decide
example : parse_price_and_id "880　222" = (some 880, some "222") := by decide
example : parse_price_and_id "880 222 90s" = (some 880, some "222") := by decide
example : parse_sale_info "215 3000 700" = (some "215", some 3000, some 700) := by decide
example : parse_measurements_simple "80 75 20 30" "パンツ" =
    { waist := some 80, inseam := some 75, hem_width := some 20, rise := some 30 } := by
  decide

-- Cross-checks of the embedding against the cases of tests/test_text_parser.py
-- (the purchase-price cases that the source's own regexes reject are stated
-- with the values the source actually produces).
example : (parse_measurements "実寸 着丈66 身幅55 肩幅48 袖丈60").length = some 66 := by decide
example : (parse_measurements "着丈:66cm 身幅:55cm").width = some 55 := by decide
example : (parse_measurements "ウエスト64 股下64 裾幅13 股上28").rise = some 28 := by decide
example : parse_purchase_price "仕入1000円" = some 1000 := by decide
example : parse_purchase_price "仕入価格 200" = some 200 := by decide
example : parse_management_id "商品管理番号：215" = some "215" := by decide
example : parse_management_id "管理No.300" = some "300" := by decide
example : parse_gender "WOMEN" = some "メンズ" := by decide
example : parse_gender "レディース M" = some "レディース" := by decide
example : parse_size "メンズ L" = some "L" := by decide
example : parse_size "フリーサイズ" = some "フリー" := by decide
example : parse_size "FREE" = some "フリー" := by decide
example : parse_size "メンズL" = none := by decide
example : parse_era "90s ビンテージ" = some "90s" := by decide
example : parse_era "2000年代" = some "2000年代" := by decide
example : parse_era "90年代" = some "90s" := by decide
example : parse_era "123s" = some "23s" := by decide
example : parse_input "1 adidas" = (some [("brand", "adidas")], none) := by decide
example : parse_input "A" = (none, some .HIGH_PROFIT) := by decide
example : parse_input "1 NIKE\n3 スウェット\nB" =
    (some [("brand", "NIKE"), ("item_type", "スウェット")], some .BALANCED) := by decide
example : parse_input "高利益重視" = (none, some .HIGH_PROFIT) := by decide
example : parse_input "回転重視" = (none, some .QUICK_SALE) := by decide
example : (apply_modifications defaultFeatures [("design", "なし")]) "design" =
    some PyVal.pnone := by decide
example : (apply_modifications defaultFeatures [("category", "パンツ")]) "category" =
    some (PyVal.cat .PANTS) := by decide
example : (apply_modifications defaultFeatures [("category", "ぱんつ")]) "category" =
    some (PyVal.cat .TOPS) := by decide

/-! ## Digit-encoding invariance (claim C8) -/

lemma pyNormalize_eq_map (l : List Char) : pyNormalize l = l.map normChar := by
  simp [pyNormalize, normChar, List.map_map]

lemma normChar_toFullWidth (c : Char) : normChar (toFullWidth c) = normChar c := by
  by_cases h0 : c = '0'
  · subst h0; decide
  by_cases h1 : c = '1'
  · subst h1; decide
  by_cases h2 : c = '2'
  · subst h2; decide
  by_cases h3 : c = '3'
  · subst h3; decide
  by_cases h4 : c = '4'
  · subst h4; decide
  by_cases h5 : c = '5'
  · subst h5; decide
  by_cases h6 : c = '6'
  · subst h6; decide
  by_cases h7 : c = '7'
  · subst h7; decide
  by_cases h8 : c = '8'
  · subst h8; decide
  by_cases h9 : c = '9'
  · subst h9; decide
  by_cases hsp : c = ' '
  · subst hsp; decide
  simp [toFullWidth, h0, h1, h2, h3, h4, h5, h6, h7, h8, h9, hsp]

lemma pyNormalize_map_toFullWidth (l : List Char) :
    pyNormalize (l.map toFullWidth) = pyNormalize l := by
  rw [pyNormalize_eq_map, pyNormalize_eq_map, List.map_map]
  induction l with
  | nil => rfl
  | cons c cs ih =>
    simp only [List.map_cons, Function.comp_apply, normChar_toFullWidth, ih]

/-- C8: `parse_price_and_id` is invariant under rewriting an input into
full-width digits and full-width spaces, and on the concrete pair of inputs
`"880　222"` / `"880 222"` it returns `(880, "222")`. -/
theorem parse_price_and_id_fullwidth_equiv :
    (∀ s : String,
      parse_price_and_id (String.mk (s.data.map toFullWidth)) = parse_price_and_id s) ∧
    parse_price_and_id "880　222" = (some 880, some "222") ∧
    parse_price_and_id "880 222" = (some 880, some "222") := by
  refine ⟨fun s => ?_, by decide, by decide⟩
  unfold parse_price_and_id parse_simple_numbers
  rw [show (String.mk (s.data.map toFullWidth)).data = s.data.map toFullWidth from rfl,
    pyNormalize_map_toFullWidth]

/-! ## The compact parse and its caller (claim C3) -/

/-- C3: evaluating the source's `parse_price_and_id` at `"880 222 90s"`.
The function returns a 2-tuple `(price, id)` and drops the era run
entirely, while its only caller (`process_text_message`, `app.py` line 240)
unpacks the result into three names and therefore raises `ValueError` for
every message reaching that branch. -/
theorem parse_price_and_id_has_no_era_slot :
    parse_price_and_id "880 222 90s" = (some 880, some "222") := by decide

/-! ## Positional measurement layout (claim C5) -/

/-- C5: the same compact input is assigned to the lower-body fields under
`パンツ` and to the upper-body fields under `トップス`; the category changes
only the field layout, never the left-to-right value order. -/
theorem parse_measurements_simple_category_layout :
    parse_measurements_simple "80 75 20 30" "パンツ" =
      { waist := some 80, inseam := some 75, hem_width := some 20, rise := some 30 } ∧
    parse_measurements_simple "80 75 20 30" "トップス" =
      { length := some 80, width := some 75, shoulder := some 20, sleeve := some 30 } :=
  ⟨by decide, by decide⟩

/-! ## Session reset (claim C6) -/

/-- C6: after `reset()` the state is `IDLE`, the image list is empty, every
collected field is cleared, and `has_required_data()` is false. -/
theorem reset_clears_session (s : UserSession) (now : Int) :
    (s.reset now).state = .IDLE ∧
    (s.reset now).image_paths = [] ∧
    (s.reset now).purchase_price = none ∧
    (s.reset now).management_id = none ∧
    (s.reset now).measurements = none ∧
    (s.reset now).features = none ∧
    (s.reset now).product = none ∧
    (s.reset now).has_required_data = false := by
  simp [UserSession.reset, UserSession.has_required_data]

/-! ## Gender precedence (claim C10) -/

/-- C10: any text containing `MEN` case-insensitively — including `WOMEN` —
parses as `メンズ`, because the men's alternation is searched first. -/
theorem parse_gender_men_substring (t : String)
    (h : ciContains t.data "MEN".data = true) :
    parse_gender t = some "メンズ" := by
  have hm : matchesMens t.data = true := by
    unfold matchesMens
    rw [h]
    simp
  simp [parse_gender, hm]

/-- Witness for C10 at the input `"WOMEN"`. -/
theorem parse_gender_men_substring_witness :
    ciContains "WOMEN".data "MEN".data = true ∧ parse_gender "WOMEN" = some "メンズ" :=
  ⟨by decide, parse_gender_men_substring "WOMEN" (by decide)⟩

/-! ## Sign of extracted measurement values (claim C9) -/

lemma digitVal_nonneg (c : Char) (h : pyIsDigit c = true) : 0 ≤ digitVal c := by
  unfold pyIsDigit at h
  unfold digitVal
  simp only [Bool.or_eq_true, Bool.and_eq_true, decide_eq_true_eq] at h
  split_ifs with h1
  · simp only [Bool.and_eq_true, decide_eq_true_eq] at h1
    omega
  · simp only [Bool.and_eq_true, decide_eq_true_eq, not_and, not_le] at h1
    omega

lemma pyInt_nonneg_aux (ds : List Char) :
    ∀ acc : Int, 0 ≤ acc → (∀ c ∈ ds, pyIsDigit c = true) →
      0 ≤ ds.foldl (fun a c => 10 * a + digitVal c) acc := by
  induction ds with
  | nil => intro acc hacc _; simpa using hacc
  | cons c cs ih =>
    intro acc hacc hds
    simp only [List.foldl_cons]
    apply ih
    · have hv := digitVal_nonneg c (hds c (by simp))
      omega
    · intro c' hc'
      exact hds c' (by simp [hc'])

lemma pyInt_nonneg (ds : List Char) (h : ∀ c ∈ ds, pyIsDigit c = true) :
    0 ≤ pyInt ds :=
  pyInt_nonneg_aux ds 0 le_rfl h

lemma searchPat_some {α : Type} (m : List Char → Option α) :
    ∀ (l : List Char) (r : α), searchPat m l = some r → ∃ t, m t = some r := by
  intro l
  induction l with
  | nil => intro r h; exact ⟨[], h⟩
  | cons c cs ih =>
    intro r h
    unfold searchPat at h
    cases hm : m (c :: cs) with
    | some r' =>
      rw [hm] at h
      exact ⟨c :: cs, hm.trans h⟩
    | none =>
      rw [hm] at h
      exact ih r h

lemma matchKwNum_digits (spec : LitSpec) (sep : Char → Bool) (t ds : List Char)
    (h : matchKwNum spec sep t = some ds) : ∀ c ∈ ds, pyIsDigit c = true := by
  unfold matchKwNum at h
  cases hd : dropLit spec t with
  | none => rw [hd] at h; simp at h
  | some rest =>
    rw [hd] at h
    by_cases he : ((rest.dropWhile sep).takeWhile pyIsDigit).isEmpty
    · simp [he] at h
    · simp only [he, Bool.false_eq_true, if_false, Option.some.injEq] at h
      subst h
      intro c hc
      exact List.mem_takeWhile_imp hc

lemma searchKwNum_map_nonneg (spec : LitSpec) (sep : Char → Bool) (l : List Char)
    (v : Int) (h : (searchKwNum spec sep l).map pyInt = some v) : 0 ≤ v := by
  rcases Option.map_eq_some'.1 h with ⟨ds, hds, hv⟩
  rcases searchPat_some _ l ds hds with ⟨t, ht⟩
  exact hv ▸ pyInt_nonneg ds (matchKwNum_digits spec sep t ds ht)

lemma runsAux_digits (l : List Char) :
    ∀ acc : List Char, (∀ c ∈ acc, pyIsDigit c = true) →
      ∀ run ∈ runsAux l acc, ∀ c ∈ run, pyIsDigit c = true := by
  induction l with
  | nil =>
    intro acc hacc run hrun
    unfold runsAux at hrun
    by_cases he : acc.isEmpty
    · simp [he] at hrun
    · simp only [he, Bool.false_eq_true, if_false, List.mem_singleton] at hrun
      subst hrun
      intro c hc
      exact hacc c (List.mem_reverse.1 hc)
  | cons c cs ih =>
    intro acc hacc run hrun
    unfold runsAux at hrun
    by_cases hc : pyIsDigit c
    · rw [if_pos hc] at hrun
      refine ih (c :: acc) ?_ run hrun
      intro c' hc'
      rcases List.mem_cons.1 hc' with h | h
      · exact h ▸ hc
      · exact hacc c' h
    · rw [if_neg hc] at hrun
      by_cases he : acc.isEmpty
      · rw [if_pos he] at hrun
        exact ih [] (by simp) run hrun
      · rw [if_neg he] at hrun
        rcases List.mem_cons.1 hrun with h | h
        · subst h
          intro c' hc'
          exact hacc c' (List.mem_reverse.1 hc')
        · exact ih [] (by simp) run h

lemma digitRuns_digits (l : List Char) :
    ∀ run ∈ digitRuns l, ∀ c ∈ run, pyIsDigit c = true :=
  runsAux_digits l [] (by simp)

lemma parse_simple_numbers_getD_nonneg (text : String) (n i : Nat) (v : Int)
    (h : (parse_simple_numbers text n).getD i none = some v) : 0 ≤ v := by
  unfold parse_simple_numbers at h
  rw [List.getD_eq_get?, List.get?_map] at h
  rcases hv : (List.range n).get? i with _ | j
  · rw [hv] at h; simp at h
  · rw [hv] at h
    simp only [Option.map_some', Option.getD_some] at h
    rcases Option.map_eq_some'.1 h with ⟨run, hrun, hval⟩
    have hmem := List.get?_mem hrun
    exact hval ▸ pyInt_nonneg run (digitRuns_digits _ run hmem)

/-- C9 (counterexample): the claim says no stored measurement field is zero
or negative, but a zero digit run is stored verbatim. -/
theorem parse_measurements_stores_zero :
    (parse_measurements "着丈0").length = some 0 := by decide

/-- C9 (amended): every measurement value stored by `parse_measurements` or
`parse_measurements_simple` is a nonnegative integer; zero is possible when
the text carries a zero digit run, so positivity does not hold. -/
theorem measurement_values_nonneg (text category : String) :
    (∀ o ∈ (parse_measurements text).fieldList, ∀ v : Int, o = some v → 0 ≤ v) ∧
    (∀ o ∈ (parse_measurements_simple text category).fieldList,
      ∀ v : Int, o = some v → 0 ≤ v) := by
  constructor
  · intro o ho v hv
    subst hv
    simp only [parse_measurements, Measurements.fieldList, List.mem_cons,
      List.mem_singleton, List.not_mem_nil, or_false] at ho
    rcases ho with h | h | h | h | h | h | h | h <;>
      exact searchKwNum_map_nonneg _ _ _ v h.symm
  · intro o ho v hv
    subst hv
    unfold parse_measurements_simple at ho
    split_ifs at ho <;>
      simp only [Measurements.fieldList, List.mem_cons, List.not_mem_nil,
        or_false] at ho <;>
      rcases ho with h | h | h | h | h | h | h | h <;>
      first
        | exact parse_simple_numbers_getD_nonneg text _ _ v h.symm
        | simp at h

/-- Witness for the amended C9 at a concrete extraction. -/
theorem measurement_values_nonneg_witness :
    (parse_measurements "着丈66").length ∈ (parse_measurements "着丈66").fieldList ∧
    (parse_measurements "着丈66").length = some 66 ∧ (0 : Int) ≤ 66 :=
  ⟨by decide, by decide,
    (measurement_values_nonneg "着丈66" "トップス").1
      ((parse_measurements "着丈66").length) (by decide) 66 (by decide)⟩

/-! ## Totality of the Field Extraction Engine (claim C4)

Every operation is a total function returning optional fields; the lemmas
below show that the padding behaviour and the digit-free case represent
every unparseable or missing field as `none`. -/

lemma parse_simple_numbers_length (text : String) (n : Nat) :
    (parse_simple_numbers text n).length = n := by
  simp [parse_simple_numbers]

lemma parse_simple_numbers_getD_none (text : String) (n i : Nat)
    (h : numRuns text ≤ i) : (parse_simple_numbers text n).getD i none = none := by
  unfold numRuns at h
  unfold parse_simple_numbers
  rw [List.getD_eq_get?, List.get?_map]
  rcases hv : (List.range n).get? i with _ | j
  · simp
  · have hlt : i < n := by
      by_contra hge
      rw [List.get?_eq_none.2 (by simpa using hge)] at hv
      exact Option.noConfusion hv
    rw [List.get?_range hlt] at hv
    have hji : j = i := by
      injection hv with hv'
      omega
    subst hji
    simp only [Option.map_some', Option.getD_some]
    rw [List.get?_eq_none.2 h]
    rfl

lemma normChar_not_digit (c : Char) (h : pyIsDigit c = false) :
    pyIsDigit (normChar c) = false := by
  by_cases h0 : c = '０'
  · exact absurd (h0 ▸ h) (by decide)
  by_cases h1 : c = '１'
  · exact absurd (h1 ▸ h) (by decide)
  by_cases h2 : c = '２'
  · exact absurd (h2 ▸ h) (by decide)
  by_cases h3 : c = '３'
  · exact absurd (h3 ▸ h) (by decide)
  by_cases h4 : c = '４'
  · exact absurd (h4 ▸ h) (by decide)
  by_cases h5 : c = '５'
  · exact absurd (h5 ▸ h) (by decide)
  by_cases h6 : c = '６'
  · exact absurd (h6 ▸ h) (by decide)
  by_cases h7 : c = '７'
  · exact absurd (h7 ▸ h) (by decide)
  by_cases h8 : c = '８'
  · exact absurd (h8 ▸ h) (by decide)
  by_cases h9 : c = '９'
  · exact absurd (h9 ▸ h) (by decide)
  have ht : pyTranslateDigit c = c := by
    simp [pyTranslateDigit, h0, h1, h2, h3, h4, h5, h6, h7, h8, h9]
  unfold normChar
  rw [ht]
  by_cases hsp : c = '　'
  · rw [if_pos hsp]; decide
  · rw [if_neg hsp]; exact h

lemma runsAux_nil (l : List Char) (h : ∀ c ∈ l, pyIsDigit c = false) :
    runsAux l [] = [] := by
  induction l with
  | nil => rfl
  | cons c cs ih =>
    unfold runsAux
    rw [if_neg (by simp [h c (by simp)])]
    rw [if_pos (by simp)]
    exact ih (fun c' hc' => h c' (by simp [hc']))

lemma digitRuns_noDigit (text : String) (h : hasNoDigit text = true) :
    digitRuns (pyNormalize text.data) = [] := by
  unfold digitRuns
  apply runsAux_nil
  intro c hc
  rw [pyNormalize_eq_map] at hc
  rcases List.mem_map.1 hc with ⟨c', hc', rfl⟩
  have := List.all_eq_true.1 h c' hc'
  exact normChar_not_digit c' (by simpa using this)

lemma numRuns_noDigit (text : String) (h : hasNoDigit text = true) :
    numRuns text = 0 := by
  unfold numRuns
  rw [digitRuns_noDigit text h]
  rfl

lemma mem_of_mem_dropWhile {p : Char → Bool} {c : Char} :
    ∀ {l : List Char}, c ∈ l.dropWhile p → c ∈ l := by
  intro l
  induction l with
  | nil => intro h; exact h
  | cons a l ih =>
    intro h
    rw [List.dropWhile_cons] at h
    by_cases ha : p a = true
    · rw [if_pos ha] at h
      exact List.mem_cons_of_mem a (ih h)
    · rw [if_neg ha] at h
      exact h

lemma takeWhile_noDigit (t : List Char) (h : ∀ c ∈ t, pyIsDigit c = false) :
    t.takeWhile pyIsDigit = [] := by
  cases t with
  | nil => rfl
  | cons c cs =>
    rw [List.takeWhile_cons, if_neg (by simp [h c (by simp)])]

lemma dropLit_mem (spec : LitSpec) :
    ∀ (cs rest : List Char), dropLit spec cs = some rest → ∀ c ∈ rest, c ∈ cs := by
  induction spec with
  | nil =>
    intro cs rest h
    have : cs = rest := by injection h
    exact this ▸ fun c hc => hc
  | cons k ks ih =>
    intro cs rest h
    obtain ⟨p, opt⟩ := k
    cases cs with
    | nil =>
      unfold dropLit at h
      by_cases ho : opt
      · rw [if_pos ho] at h
        exact ih [] rest h
      · rw [if_neg ho] at h
        exact Option.noConfusion h
    | cons c cs' =>
      unfold dropLit at h
      by_cases hp : p c = true
      · rw [if_pos hp] at h
        exact fun d hd => List.mem_cons_of_mem c (ih cs' rest h d hd)
      · rw [if_neg hp] at h
        by_cases ho : opt
        · rw [if_pos ho] at h
          exact ih (c :: cs') rest h
        · rw [if_neg ho] at h
          exact Option.noConfusion h

lemma matchKwNum_noDigit (spec : LitSpec) (sep : Char → Bool) (t : List Char)
    (h : ∀ c ∈ t, pyIsDigit c = false) : matchKwNum spec sep t = none := by
  unfold matchKwNum
  cases hd : dropLit spec t with
  | none => rfl
  | some rest =>
    have hrest : ∀ c ∈ rest, pyIsDigit c = false :=
      fun c hc => h c (dropLit_mem spec t rest hd c hc)
    have : (rest.dropWhile sep).takeWhile pyIsDigit = [] :=
      takeWhile_noDigit _ (fun c hc => hrest c (mem_of_mem_dropWhile hc))
    simp [this]

lemma searchPat_none {α : Type} (m : List Char → Option α)
    (hm : ∀ t, (∀ c ∈ t, pyIsDigit c = false) → m t = none) :
    ∀ l, (∀ c ∈ l, pyIsDigit c = false) → searchPat m l = none := by
  intro l
  induction l with
  | nil => intro h; exact hm [] (by simp)
  | cons c cs ih =>
    intro h
    unfold searchPat
    rw [hm (c :: cs) h]
    exact ih (fun c' hc' => h c' (by simp [hc']))

lemma searchKwNum_noDigit (spec : LitSpec) (sep : Char → Bool) (l : List Char)
    (h : ∀ c ∈ l, pyIsDigit c = false) : searchKwNum spec sep l = none :=
  searchPat_none _ (matchKwNum_noDigit spec sep) l h

lemma matchDigitsSuffix_noDigit (k : Nat) (suffix : LitSpec) (t : List Char)
    (hk : k ≠ 0) (h : ∀ c ∈ t, pyIsDigit c = false) :
    matchDigitsSuffix k suffix t = none := by
  unfold matchDigitsSuffix
  by_cases hc : ((t.take k).length = k && (t.take k).all pyIsDigit) = true
  · exfalso
    simp only [Bool.and_eq_true, decide_eq_true_eq, List.all_eq_true] at hc
    rcases hc with ⟨hlen, hall⟩
    cases ht : t.take k with
    | nil => rw [ht] at hlen; simp at hlen; omega
    | cons c cs =>
      have hmem : c ∈ t := List.take_subset k t (ht ▸ List.mem_cons_self c cs)
      have := hall c (ht ▸ List.mem_cons_self c cs)
      rw [h c hmem] at this
      exact Bool.noConfusion this
  · rw [if_neg hc]

lemma noDigit_chars (text : String) (h : hasNoDigit text = true) :
    ∀ c ∈ text.data, pyIsDigit c = false := by
  intro c hc
  have := List.all_eq_true.1 h c hc
  simpa using this

/-- C4: the extraction operations are total functions into optional fields:
`parse_simple_numbers` always returns exactly `count` slots and pads every
slot beyond the available digit runs with `none`, and on digit-free input
every digit-derived field of `parse_price_and_id`, `parse_sale_info`,
`parse_measurements_simple` and `parse_all` is absent rather than an error
or a zero. -/
theorem extraction_engine_total (text category : String) (n i : Nat) :
    (parse_simple_numbers text n).length = n ∧
    (numRuns text ≤ i → (parse_simple_numbers text n).getD i none = none) ∧
    (hasNoDigit text = true →
      parse_price_and_id text = (none, none) ∧
      parse_sale_info text = (none, none, none) ∧
      parse_measurements_simple text category = Measurements.empty ∧
      (parse_all text).purchase_price = none ∧
      (parse_all text).management_id = none ∧
      (parse_all text).era = none ∧
      (parse_all text).measurements = Measurements.empty) := by
  refine ⟨parse_simple_numbers_length text n, parse_simple_numbers_getD_none text n i, ?_⟩
  intro hnd
  have hz : numRuns text = 0 := numRuns_noDigit text hnd
  have hgetD : ∀ m j : Nat, (parse_simple_numbers text m).getD j none = none := by
    intro m j
    exact parse_simple_numbers_getD_none text m j (by omega)
  have hchars := noDigit_chars text hnd
  refine ⟨?_, ?_, ?_, ?_, ?_, ?_, ?_⟩
  · unfold parse_price_and_id
    rw [hgetD 2 0, hgetD 2 1]
    rfl
  · unfold parse_sale_info
    rw [hgetD 3 0, hgetD 3 1, hgetD 3 2]
    rfl
  · unfold parse_measurements_simple
    split_ifs
    · rw [hgetD 4 0, hgetD 4 1, hgetD 4 2, hgetD 4 3]
      rfl
    · rw [hgetD 8 0, hgetD 8 1, hgetD 8 2, hgetD 8 3, hgetD 8 4, hgetD 8 5,
        hgetD 8 6, hgetD 8 7]
      rfl
    · rw [hgetD 4 0, hgetD 4 1, hgetD 4 2, hgetD 4 3]
      rfl
  · show parse_purchase_price text = none
    unfold parse_purchase_price
    rw [searchKwNum_noDigit _ _ _ hchars, searchKwNum_noDigit _ _ _ hchars,
      searchKwNum_noDigit _ _ _ hchars, searchKwNum_noDigit _ _ _ hchars]
    rfl
  · show parse_management_id text = none
    unfold parse_management_id
    rw [searchKwNum_noDigit _ _ _ hchars, searchKwNum_noDigit _ _ _ hchars,
      searchKwNum_noDigit _ _ _ hchars]
    rfl
  · show parse_era text = none
    unfold parse_era
    rw [searchPat_none _ (fun t ht => matchDigitsSuffix_noDigit 2 _ t (by omega) ht) _ hchars,
      searchPat_none _ (fun t ht => matchDigitsSuffix_noDigit 4 _ t (by omega) ht) _ hchars,
      searchPat_none _ (fun t ht => matchDigitsSuffix_noDigit 2 _ t (by omega) ht) _ hchars]
  · show parse_measurements text = Measurements.empty
    unfold parse_measurements
    rw [searchKwNum_noDigit _ _ _ hchars, searchKwNum_noDigit _ _ _ hchars,
      searchKwNum_noDigit _ _ _ hchars, searchKwNum_noDigit _ _ _ hchars,
      searchKwNum_noDigit _ _ _ hchars, searchKwNum_noDigit _ _ _ hchars,
      searchKwNum_noDigit _ _ _ hchars, searchKwNum_noDigit _ _ _ hchars]
    rfl

/-- Witness for C4 at a concrete digit-free input. -/
theorem extraction_engine_total_witness :
    numRuns "こんにちは" ≤ 0 ∧ hasNoDigit "こんにちは" = true ∧
    (parse_simple_numbers "こんにちは" 2).length = 2 ∧
    (parse_simple_numbers "こんにちは" 2).getD 0 none = none ∧
    parse_price_and_id "こんにちは" = (none, none) ∧
    parse_sale_info "こんにちは" = (none, none, none) := by
  have h := extraction_engine_total "こんにちは" "パンツ" 2 0
  exact ⟨by decide, by decide, h.1, h.2.1 (by decide),
    (h.2.2 (by decide)).1, (h.2.2 (by decide)).2.1⟩

/-! ## Idempotence of the refinement protocol (claim C7)

`apply_modifications` writes each edited attribute to a value computed from
the edit alone; the proof characterises the result pointwise by the last
effective write of the edit list and shows re-application changes nothing. -/

lemma objSet_apply (f : AttrObj) (k : String) (v : PyVal) (n : String) :
    objSet f k v n = if n = k then some v else f n := rfl

lemma applyModStep_eq (f : AttrObj) (kv : String × String) :
    applyModStep f kv =
      match writeOfD (objDom f) kv with
      | some (k, v) => objSet f k v
      | none => f := by
  unfold applyModStep writeOfD objHas objDom
  by_cases h1 : kv.1 = "category"
  · rw [if_pos h1, if_pos h1]
    cases categoryMapping kv.2 <;> simp
  · rw [if_neg h1, if_neg h1]
    by_cases h2 : kv.1 = "design"
    · rw [if_pos h2, if_pos h2]
      by_cases h3 : kv.2 ∈ noneSynonyms <;> simp [h3]
    · rw [if_neg h2, if_neg h2]
      by_cases h4 : (f kv.1).isSome <;> simp [h4]

lemma writeOfD_cases (d : String → Bool) (kv : String × String) (k : String)
    (v : PyVal) (h : writeOfD d kv = some (k, v)) :
    k = "category" ∨ k = "design" ∨ (k = kv.1 ∧ d k = true) := by
  unfold writeOfD at h
  by_cases h1 : kv.1 = "category"
  · rw [if_pos h1] at h
    cases hm : categoryMapping kv.2 <;> rw [hm] at h <;> simp at h
    exact Or.inl h.1.symm
  · rw [if_neg h1] at h
    by_cases h2 : kv.1 = "design"
    · rw [if_pos h2] at h
      simp at h
      exact Or.inr (Or.inl h.1.symm)
    · rw [if_neg h2] at h
      by_cases h4 : d kv.1 = true
      · rw [if_pos h4] at h
        simp at h
        exact Or.inr (Or.inr ⟨h.1.symm, h.1 ▸ h4⟩)
      · rw [if_neg h4] at h
        exact Option.noConfusion h

lemma objDom_applyModStep (f : AttrObj) (kv : String × String) (n : String)
    (h1 : n ≠ "category") (h2 : n ≠ "design") :
    objDom (applyModStep f kv) n = objDom f n := by
  rw [applyModStep_eq]
  cases hw : writeOfD (objDom f) kv with
  | none => rfl
  | some p =>
    obtain ⟨k, v⟩ := p
    show objDom (objSet f k v) n = objDom f n
    rcases writeOfD_cases _ _ _ _ hw with hk | hk | ⟨hk, hd⟩
    · have hnk : n ≠ k := fun hh => h1 (hh.trans hk)
      simp [objDom, objSet_apply, hnk]
    · have hnk : n ≠ k := fun hh => h2 (hh.trans hk)
      simp [objDom, objSet_apply, hnk]
    · by_cases hnk : n = k
      · subst hnk
        simp only [objDom] at hd ⊢
        simp [objSet_apply, hd]
      · simp [objDom, objSet_apply, hnk]

lemma objDom_fold (e : List (String × String)) (f : AttrObj) (n : String)
    (h1 : n ≠ "category") (h2 : n ≠ "design") :
    objDom (apply_modifications f e) n = objDom f n := by
  induction e generalizing f with
  | nil => rfl
  | cons kv e ih =>
    show objDom (apply_modifications (applyModStep f kv) e) n = _
    rw [ih (applyModStep f kv), objDom_applyModStep f kv n h1 h2]

lemma writeOfD_congr (d d' : String → Bool) (kv : String × String)
    (h : ∀ m, m ≠ "category" → m ≠ "design" → d m = d' m) :
    writeOfD d kv = writeOfD d' kv := by
  unfold writeOfD
  by_cases h1 : kv.1 = "category"
  · simp [h1]
  by_cases h2 : kv.1 = "design"
  · simp [h1, h2]
  rw [if_neg h1, if_neg h2, if_neg h1, if_neg h2, h kv.1 h1 h2]

lemma lastWrite_congr (d d' : String → Bool) (n : String)
    (e : List (String × String))
    (h : ∀ m, m ≠ "category" → m ≠ "design" → d m = d' m) :
    lastWrite d n e = lastWrite d' n e := by
  have hstep : ∀ acc kv, lwStep d n acc kv = lwStep d' n acc kv := by
    intro acc kv
    unfold lwStep
    rw [writeOfD_congr d d' kv h]
  suffices hgen : ∀ (e' : List (String × String)) (acc : Option PyVal),
      e'.foldl (lwStep d n) acc = e'.foldl (lwStep d' n) acc from hgen e none
  intro e'
  induction e' with
  | nil => intro acc; rfl
  | cons kv e' ih =>
    intro acc
    rw [List.foldl_cons, List.foldl_cons, hstep, ih]

lemma lwStep_shape (d : String → Bool) (n : String) (acc : Option PyVal)
    (kv : String × String) :
    lwStep d n acc kv =
      match lwStep d n none kv with
      | some w => some w
      | none => acc := by
  unfold lwStep
  cases writeOfD d kv with
  | none => rfl
  | some p =>
    obtain ⟨k, w⟩ := p
    by_cases hk : k = n <;> simp [hk]

lemma foldl_lwStep_acc (d : String → Bool) (n : String) :
    ∀ (e : List (String × String)) (acc : Option PyVal),
      e.foldl (lwStep d n) acc =
        match e.foldl (lwStep d n) none with
        | some w => some w
        | none => acc := by
  intro e
  induction e with
  | nil => intro acc; rfl
  | cons kv e ih =>
    intro acc
    rw [List.foldl_cons, List.foldl_cons, ih (lwStep d n acc kv),
      ih (lwStep d n none kv)]
    cases hfold : e.foldl (lwStep d n) none with
    | some w => rfl
    | none => exact lwStep_shape d n acc kv

lemma apply_modifications_char (e : List (String × String)) :
    ∀ (f : AttrObj) (n : String),
      apply_modifications f e n =
        match lastWrite (objDom f) n e with
        | some w => some w
        | none => f n := by
  induction e with
  | nil => intro f n; rfl
  | cons kv e ih =>
    intro f n
    show apply_modifications (applyModStep f kv) e n = _
    rw [ih (applyModStep f kv) n,
      lastWrite_congr _ _ n e
        (fun m h1 h2 => objDom_applyModStep f kv m h1 h2)]
    show _ = match lastWrite (objDom f) n (kv :: e) with
      | some w => some w
      | none => f n
    unfold lastWrite
    rw [List.foldl_cons, foldl_lwStep_acc (objDom f) n e (lwStep (objDom f) n none kv)]
    cases hfold : e.foldl (lwStep (objDom f) n) none with
    | some w => rfl
    | none =>
      rw [applyModStep_eq]
      unfold lwStep
      cases hw : writeOfD (objDom f) kv with
      | none => rfl
      | some p =>
        obtain ⟨k, w⟩ := p
        by_cases hk : k = n
        · subst hk
          simp [objSet_apply]
        · have hnk : n ≠ k := fun hh => hk hh.symm
          simp [objSet_apply, hk, hnk]

/-- C7: applying `apply_modifications` twice with the same edit map yields
the same feature summary as applying it once, for every feature object and
every edit map — including category edits (applied only for known labels)
and `none`-synonym design edits (which clear the field). -/
theorem apply_modifications_idempotent (f : AttrObj) (mods : List (String × String)) :
    apply_modifications (apply_modifications f mods) mods = apply_modifications f mods := by
  funext n
  rw [apply_modifications_char mods (apply_modifications f mods) n,
    lastWrite_congr (objDom (apply_modifications f mods)) (objDom f) n mods
      (fun m h1 h2 => objDom_fold mods f m h1 h2)]
  cases hlw : lastWrite (objDom f) n mods with
  | some w =>
    rw [apply_modifications_char mods f n, hlw]
  | none =>
    rw [apply_modifications_char mods f n, hlw]

/-! ## The CONFIRMING-implies-features invariant (claim C1) -/

lemma inv_reset (s : UserSession) (now : Int) :
    ConfirmingHasFeatures (s.reset now) := by
  intro h
  exact absurd h (by simp [UserSession.reset])

lemma inv_start_analysis (env : Env) (s : UserSession)
    (h : ConfirmingHasFeatures s) :
    ConfirmingHasFeatures (start_analysis env s) := by
  unfold start_analysis
  cases env.analysis with
  | none => exact h
  | some f0 => exact fun _ => rfl

lemma inv_start_category_detection (env : Env) (s : UserSession)
    (h : ConfirmingHasFeatures s) :
    ConfirmingHasFeatures (start_category_detection env s) := by
  unfold start_category_detection
  cases env.detect_category with
  | none => exact h
  | some cat => exact fun hst => SessionState.noConfusion hst

lemma inv_process_measurements_input (env : Env) (s : UserSession) (text : String)
    (h : ConfirmingHasFeatures s) :
    ConfirmingHasFeatures (process_measurements_input env s text) := by
  unfold process_measurements_input
  split_ifs <;>
    first
      | exact h
      | exact inv_start_analysis env _ (fun hst => h hst)

lemma inv_process_sale_info_input (env : Env) (s : UserSession) (text : String)
    (h : ConfirmingHasFeatures s) :
    ConfirmingHasFeatures (process_sale_info_input env s text) := by
  unfold process_sale_info_input
  cases sale_ledger_call text with
  | none => exact h
  | some c => split_ifs <;> exact inv_reset s env.now

lemma inv_generate_product_info (env : Env) (s : UserSession)
    (strat : PricingStrategy) :
    ConfirmingHasFeatures (generate_product_info env s strat) := by
  unfold generate_product_info
  split_ifs
  · exact fun hst => SessionState.noConfusion hst
  · exact fun hst => SessionState.noConfusion hst
  · exact inv_reset _ env.now

lemma inv_confirmationEdits (s : UserSession) (text : String)
    (h : ConfirmingHasFeatures s) :
    ConfirmingHasFeatures (confirmationEdits s text) := by
  unfold confirmationEdits
  cases hmods : (parse_input text).1 with
  | none =>
    cases hf : s.features with
    | none => exact h
    | some f => exact h
  | some mods =>
    cases hf : s.features with
    | none => exact h
    | some f => exact fun _ => rfl

lemma inv_process_confirmation_response (env : Env) (s : UserSession)
    (text : String) (h : ConfirmingHasFeatures s) :
    ConfirmingHasFeatures (process_confirmation_response env s text) := by
  unfold process_confirmation_response
  cases hstrat : (parse_input text).2 with
  | some strat => exact inv_generate_product_info env _ strat
  | none => exact inv_confirmationEdits s text h

lemma inv_process_text_message (env : Env) (s : UserSession) (text : String)
    (h : ConfirmingHasFeatures s) :
    ConfirmingHasFeatures (process_text_message env s text) := by
  unfold process_text_message
  split_ifs
  · exact inv_reset s env.now
  · exact inv_reset s env.now
  · exact h

lemma inv_imageReady (env : Env) (s : UserSession) (path : String) :
    ConfirmingHasFeatures (imageReady env s path) := by
  unfold imageReady
  split_ifs
  · exact inv_start_analysis env _ (fun hst => SessionState.noConfusion hst)
  · exact inv_start_category_detection env _ (fun hst => SessionState.noConfusion hst)
  · exact fun hst => SessionState.noConfusion hst

lemma inv_process_image_message (env : Env) (s : UserSession)
    (h : ConfirmingHasFeatures s) :
    ConfirmingHasFeatures (process_image_message env s) := by
  unfold process_image_message
  split_ifs with hstate
  · exact h
  · cases env.download with
    | none => exact h
    | some path => exact inv_imageReady env s path

/-- C1: the invariant "state = CONFIRMING implies features is set" is
preserved by every operation of the conversation state machine: text
handling, image handling, explicit reset, expiry reset (`get_session`), and
generation. -/
theorem confirming_invariant_preserved (env : Env) (s : UserSession)
    (text : String) (now : Int) (strat : PricingStrategy)
    (h : ConfirmingHasFeatures s) :
    ConfirmingHasFeatures (process_text_message env s text) ∧
    ConfirmingHasFeatures (process_image_message env s) ∧
    ConfirmingHasFeatures (s.reset now) ∧
    ConfirmingHasFeatures (get_session env s) ∧
    ConfirmingHasFeatures (generate_product_info env s strat) := by
  refine ⟨inv_process_text_message env s text h,
    inv_process_image_message env s h,
    inv_reset s now, ?_, inv_generate_product_info env s strat⟩
  unfold get_session
  split_ifs
  · exact inv_reset s env.now
  · exact h

/-- Witness for C1 at a concrete session and message. -/
theorem confirming_invariant_preserved_witness :
    ConfirmingHasFeatures sessionIdle ∧
    ConfirmingHasFeatures (process_text_message envDefault sessionIdle "abc") :=
  ⟨by intro h; exact absurd h (by decide),
    (confirming_invariant_preserved envDefault sessionIdle "abc" 0 .BALANCED
      (by intro h; exact absurd h (by decide))).1⟩

/-! ## The sale flow (claim C2) -/

/-- C2: evaluating the text handler at the claimed sale flow.  The trigger
`売却` clears the session, but the handler crashes before it can enter a
sale-await state: the source `SessionState` enum has no `WAITING_SALE_INFO`
member, so `app.py` line 215 raises `AttributeError` right after
`session.reset()`, leaving the session in `IDLE` — and a follow-up message
such as `"215 3000 700"`, although it parses as the three sale integers,
raises the same `AttributeError` at the dispatch comparison (`app.py`
line 224) before any mutation, so the ledger update is never triggered. -/
theorem sale_trigger_crashes_after_reset (env : Env) (s : UserSession) :
    process_text_message env s "売却" = s.reset env.now ∧
    (process_text_message env s "売却").state = .IDLE ∧
    process_text_message env s "215 3000 700" = s ∧
    parse_sale_info "215 3000 700" = (some "215", some 3000, some 700) := by
  have h1 : process_text_message env s "売却" = s.reset env.now := by
    unfold process_text_message
    rw [if_neg (by decide), if_pos (by decide)]
  refine ⟨h1, ?_, ?_, by decide⟩
  · rw [h1]
    rfl
  · unfold process_text_message
    rw [if_neg (by decide), if_neg (by decide)]

end SaleSupport
